import Mathlib

/-!
Verification development for the hex-graph repository.

Shallow embedding of the Python sources under a hexmap package:
`models.py` (HexSide, HexDirection, Territory, Hexagon),
`archetypes.py` (HexagonArchetypes), `grid.py` (HexagonGrid and the
territory-graph extraction), and `cli.py` (supply-center selection).

Modelling conventions:
 - Python `uuid4` identities are modelled as caller-supplied `String` ids.
 - `random.choice` / `random.randint` draws are modelled by an explicit
   stream of natural numbers (an index is taken modulo the list length);
   `random.choice([True, False])` draws are modelled by a stream of Bools.
 - The networkx `Graph` is modelled as a list of nodes (territory id with
   an optional owning-hexagon id attribute) plus a list of edges
   `(u, v, connection_type)`.  As in `networkx.Graph`, adding an edge whose
   unordered endpoint pair is already present does not append a second
   entry: it updates the stored attribute.  Adding a node twice updates its
   attribute; `add_edge` inserts missing endpoints as attribute-less nodes.
 - Python exceptions (`ValueError`, `RuntimeError`) are modelled with an
   explicit `PyError` sum returned through `Except`.
-/

/-- A hexagon side, numbered 0-5 (models `HexSide`). -/
abbrev HexSide := Fin 6

/-- A compass direction N/NE/SE/S/SW/NW as 0-5 (models `HexDirection`). -/
abbrev HexDirection := Fin 6

/-- Models `Territory`: an id (uuid in the source) plus the set of sides it
touches. -/
structure Territory where
  territory_id : String
  touching_sides : Finset HexSide
deriving DecidableEq

/-- Models `Hexagon`: id, territories, internal adjacency pairs, rotation.
The source stores `rotation` as a Python `int`, so it is an `Int` here. -/
structure Hexagon where
  hex_id : String
  territories : List Territory
  internal_edges : List (Territory × Territory)
  rotation : Int := 0
deriving DecidableEq

/-- Models `Hexagon.get_side_by_direction`:
`HexSide((direction.value + self.rotation) % 6)`.  Python `%` on a positive
modulus is `Int.emod` followed by the (here lossless) conversion to 0-5. -/
def get_side_by_direction (h : Hexagon) (direction : HexDirection) : HexSide :=
  ⟨(((direction.val : Int) + h.rotation) % 6).toNat, by
    have h1 : (0 : Int) ≤ ((direction.val : Int) + h.rotation) % 6 :=
      Int.emod_nonneg _ (by omega)
    have h2 : ((direction.val : Int) + h.rotation) % 6 < 6 :=
      Int.emod_lt_of_pos _ (by omega)
    omega⟩

/-- Models `HexagonGrid`: hexagons plus side-to-side connection tuples
`(hex1_id, side1, hex2_id, side2)`. -/
structure HexagonGrid where
  hexagons : List Hexagon := []
  hex_connections : List (String × HexSide × String × HexSide) := []
deriving DecidableEq

/-- Models `HexagonGrid.is_side_occupied`: scan the connection list for the
(hexagon id, side) pair in either position. -/
def is_side_occupied (g : HexagonGrid) (hexId : String) (side : HexSide) : Bool :=
  g.hex_connections.any (fun c =>
    (c.1 == hexId && c.2.1 == side) || (c.2.2.1 == hexId && c.2.2.2 == side))

/-- Models Python exceptions raised by the sources. -/
inductive PyError where
  | valueError (msg : String)
  | runtimeError (msg : String)
deriving DecidableEq

/-- Models `HexagonGrid.add_hexagon`.  The hexagon is appended first; a
missing side argument (with a connection target) raises `ValueError`; an
occupied side returns `false` without recording a connection.  The source
mutates `self`, so the result carries both the outcome and the new grid. -/
def add_hexagon (g : HexagonGrid) (hexagon : Hexagon)
    (connect_to_hex_id : Option String := none)
    (connect_my_side : Option HexSide := none)
    (connect_their_side : Option HexSide := none) :
    Except PyError Bool × HexagonGrid :=
  let g1 : HexagonGrid := { g with hexagons := g.hexagons ++ [hexagon] }
  match connect_to_hex_id with
  | none => (.ok true, g1)
  | some target =>
    match connect_my_side, connect_their_side with
    | some mySide, some theirSide =>
      if is_side_occupied g1 hexagon.hex_id mySide then (.ok false, g1)
      else if is_side_occupied g1 target theirSide then (.ok false, g1)
      else (.ok true,
        { g1 with hex_connections :=
            g1.hex_connections ++ [(hexagon.hex_id, mySide, target, theirSide)] })
    | _, _ => (.error (.valueError "Must specify both sides for connection"), g1)

/-- Models `HexagonGrid.get_hexagon_by_id`: first hexagon with the id. -/
def get_hexagon_by_id (g : HexagonGrid) (hexId : String) : Option Hexagon :=
  g.hexagons.find? (fun h => h.hex_id == hexId)

/-- Models `HexagonArchetypes.create_single` (ids supplied by the caller in
place of `uuid4`). -/
def create_single (hexId t1 : String) : Hexagon :=
  let territory_1 : Territory := ⟨t1, {0, 1, 2, 3, 4, 5}⟩
  { hex_id := hexId, territories := [territory_1], internal_edges := [] }

/-- Models `HexagonArchetypes.create_triple`. -/
def create_triple (hexId t1 t2 t3 : String) : Hexagon :=
  let territory_1 : Territory := ⟨t1, {0, 1}⟩
  let territory_2 : Territory := ⟨t2, {2, 3}⟩
  let territory_3 : Territory := ⟨t3, {4, 5}⟩
  { hex_id := hexId,
    territories := [territory_1, territory_2, territory_3],
    internal_edges :=
      [(territory_1, territory_2), (territory_2, territory_3),
       (territory_1, territory_3)] }

/-- Models `HexagonArchetypes.create_diamond`. -/
def create_diamond (hexId t1 t2 t3 t4 : String) : Hexagon :=
  let territory_1 : Territory := ⟨t1, {0, 1}⟩
  let territory_2 : Territory := ⟨t2, {5}⟩
  let territory_3 : Territory := ⟨t3, {2}⟩
  let territory_4 : Territory := ⟨t4, {3, 4}⟩
  { hex_id := hexId,
    territories := [territory_1, territory_2, territory_3, territory_4],
    internal_edges :=
      [(territory_1, territory_2), (territory_1, territory_3),
       (territory_2, territory_3), (territory_4, territory_2),
       (territory_4, territory_3)] }

/-- Models `HexagonArchetypes.create_five`. -/
def create_five (hexId t1 t2 t3 t4 t5 : String) : Hexagon :=
  let territory_1 : Territory := ⟨t1, {0}⟩
  let territory_2 : Territory := ⟨t2, {1}⟩
  let territory_3 : Territory := ⟨t3, {2}⟩
  let territory_4 : Territory := ⟨t4, {3, 4}⟩
  let territory_5 : Territory := ⟨t5, {5}⟩
  { hex_id := hexId,
    territories :=
      [territory_1, territory_2, territory_3, territory_4, territory_5],
    internal_edges :=
      [(territory_1, territory_2), (territory_1, territory_5),
       (territory_1, territory_3), (territory_2, territory_3),
       (territory_4, territory_3), (territory_4, territory_5),
       (territory_3, territory_5)] }

/-- The derived territory graph (models the `networkx.Graph` value built by
`extract_territory_graph`): nodes are `(territory_id, hexagon_id?)`, edges
are `(u, v, connection_type)`. -/
structure TerritoryGraph where
  nodes : List (String × Option String) := []
  edges : List (String × String × String) := []
deriving DecidableEq

/-- Does the graph have a node with this id (models `id in graph`). -/
def has_node (g : TerritoryGraph) (id : String) : Bool :=
  g.nodes.any (fun p => p.1 == id)

/-- Models `graph.add_node(id, hexagon_id=hexId)`: networkx updates the
attributes of an existing node, else appends a fresh node. -/
def add_node (g : TerritoryGraph) (id : String) (hexId : String) : TerritoryGraph :=
  if has_node g id then
    { g with nodes := g.nodes.map (fun p => if p.1 == id then (p.1, some hexId) else p) }
  else
    { g with nodes := g.nodes ++ [(id, some hexId)] }

/-- networkx `add_edge` inserts missing endpoints as nodes without
attributes. -/
def ensure_node (g : TerritoryGraph) (id : String) : TerritoryGraph :=
  if has_node g id then g else { g with nodes := g.nodes ++ [(id, none)] }

/-- Does a stored edge `(u, v, _)` join the unordered pair `{a, b}`. -/
def edge_matches (u v a b : String) : Bool :=
  (u == a && v == b) || (u == b && v == a)

/-- Models `graph.add_edge(a, b, connection_type=ctype)`: a `networkx.Graph`
is simple, so when the unordered pair is already present the stored edge's
attribute is updated in place; otherwise a new edge entry is appended. -/
def add_edge (g : TerritoryGraph) (a b : String) (ctype : String) : TerritoryGraph :=
  let g1 := ensure_node (ensure_node g a) b
  if g1.edges.any (fun e => edge_matches e.1 e.2.1 a b) then
    let updated := g1.edges.map
      (fun e => if edge_matches e.1 e.2.1 a b then (e.1, e.2.1, ctype) else e)
    { g1 with edges := updated }
  else
    { g1 with edges := g1.edges ++ [(a, b, ctype)] }

/-- Models `graph.neighbors(v)`: the other endpoint of every stored edge
incident to `v`. -/
def neighbors (g : TerritoryGraph) (v : String) : List String :=
  g.edges.filterMap (fun e =>
    if e.1 == v then some e.2.1 else if e.2.1 == v then some e.1 else none)

/-- Python's `HexSide((side - 1) % 6)`: for `side` in 0-5 this equals
`(side + 5) % 6`. -/
def prev_side (side : HexSide) : HexSide := ⟨(side.val + 5) % 6, by omega⟩

/-- Python's `HexSide((side + 1) % 6)`. -/
def next_side (side : HexSide) : HexSide := ⟨(side.val + 1) % 6, by omega⟩

/-- Models the nested `get_territory_position` helper of
`_get_smart_territory_connections`: `start` if the territory also touches
`(side - 1) % 6`, else `end` if it touches `(side + 1) % 6`, else
`middle`. -/
def get_territory_position (territory : Territory) (side : HexSide) : String :=
  if prev_side side ∈ territory.touching_sides then "start"
  else if next_side side ∈ territory.touching_sides then "end"
  else "middle"

/-- All ordered pairs, first component from `l1`, second from `l2` (the
nested `for` loops building `connections` in the source). -/
def all_pairs (l1 l2 : List Territory) : List (Territory × Territory) :=
  l1.flatMap (fun t1 => l2.map (fun t2 => (t1, t2)))

/-- Models `_get_smart_territory_connections`.  `coins` is the stream
backing `random.choice([True, False])`; exactly one coin is consumed when
the optional diagonal edge is considered, so the remaining stream is
returned. -/
def get_smart_territory_connections (hex1_territories hex2_territories : List Territory)
    (side1 side2 : HexSide) (coins : List Bool) :
    List (Territory × Territory) × List Bool :=
  if hex1_territories.length = 1 ∨ hex2_territories.length = 1 then
    (all_pairs hex1_territories hex2_territories, coins)
  else if hex1_territories.length = 2 ∧ hex2_territories.length = 2 then
    let hex1_start := hex1_territories.filter
      (fun t => get_territory_position t side1 == "start")
    let hex1_end := hex1_territories.filter
      (fun t => get_territory_position t side1 == "end")
    let hex2_start := hex2_territories.filter
      (fun t => get_territory_position t side2 == "start")
    let hex2_end := hex2_territories.filter
      (fun t => get_territory_position t side2 == "end")
    let base := all_pairs hex1_start hex2_end ++ all_pairs hex1_end hex2_start
    if hex1_start ≠ [] ∧ hex1_end ≠ [] ∧ hex2_start ≠ [] ∧ hex2_end ≠ [] then
      if coins.headD true then (base ++ all_pairs hex1_start hex2_start, coins.tail)
      else (base ++ all_pairs hex1_end hex2_end, coins.tail)
    else (base, coins)
  else
    (all_pairs hex1_territories hex2_territories, coins)

/-- Models `HexagonGrid.extract_territory_graph`.  Step 1 adds every
territory as a node and collects internal edges; step 2 adds the internal
edges; step 3 processes each grid connection through
`_get_smart_territory_connections` (threading the coin stream) and adds the
resulting `inter_hexagon` edges. -/
def extract_territory_graph (grid : HexagonGrid) (coins : List Bool) : TerritoryGraph :=
  let g0 : TerritoryGraph := {}
  let g1 := grid.hexagons.foldl
    (fun g hexagon => hexagon.territories.foldl
      (fun g t => add_node g t.territory_id hexagon.hex_id) g) g0
  let all_internal_edges := grid.hexagons.flatMap
    (fun hexagon => hexagon.internal_edges.map
      (fun e => (e.1.territory_id, e.2.territory_id)))
  let g2 := all_internal_edges.foldl
    (fun g e => add_edge g e.1 e.2 "internal") g1
  let step3 := grid.hex_connections.foldl
    (fun (acc : TerritoryGraph × List Bool) conn =>
      match get_hexagon_by_id grid conn.1, get_hexagon_by_id grid conn.2.2.1 with
      | some hex1, some hex2 =>
        let hex1_territories := hex1.territories.filter
          (fun t => conn.2.1 ∈ t.touching_sides)
        let hex2_territories := hex2.territories.filter
          (fun t => conn.2.2.2 ∈ t.touching_sides)
        let sc := get_smart_territory_connections hex1_territories hex2_territories
          conn.2.1 conn.2.2.2 acc.2
        (sc.1.foldl
          (fun g p => add_edge g p.1.territory_id p.2.territory_id "inter_hexagon")
          acc.1, sc.2)
      | _, _ => acc)
    (g2, coins)
  step3.1

/-- The node ids of the graph, in insertion order (models
`list(territory_graph.nodes())`). -/
def node_ids (g : TerritoryGraph) : List String :=
  g.nodes.map (fun p => p.1)

/-- One round of the BFS expansion in `_create_supply_territories_algo`:
keep the current set and add the neighbors of each of its members (the
source guards each lookup with `if territory in territory_graph`). -/
def expand_round (g : TerritoryGraph) (s : List String) : List String :=
  s ++ s.flatMap (fun t => if has_node g t then neighbors g t else [])

/-- The removal set built for a selected territory: itself, then two rounds
of neighbor expansion (`for distance in range(1, 3)`), i.e. everything
within graph distance 2. -/
def territories_to_remove (g : TerritoryGraph) (t : String) : List String :=
  expand_round g (expand_round g [t])

/-- The `while len(selected_supply_centers) < num_supply and
available_territories` loop of one attempt.  `random.choice` is modelled by
taking the head of the index stream modulo the number of candidates.  The
structural `fuel` argument bounds the iteration count; each iteration
removes the picked territory from `available`, so `available.length` fuel
is always enough (`select_loop_fuel_congr` below makes this precise). -/
def select_loop (g : TerritoryGraph) (num_supply : Nat) :
    Nat → List String → List String → List Nat → List String × List Nat
  | 0, selected, _, rng => (selected, rng)
  | fuel + 1, selected, available, rng =>
    if selected.length < num_supply ∧ available ≠ [] then
      let idx := rng.headD 0 % available.length
      let t := available.getD idx ""
      let removal := territories_to_remove g t
      select_loop g num_supply fuel (selected ++ [t])
        (available.filter (fun v => ¬ v ∈ removal)) rng.tail
    else (selected, rng)

/-- The fixed `max_retries` default of `_create_supply_territories_algo`. -/
def max_retries : Nat := 5

/-- The `RuntimeError` message raised when every attempt fails, exactly as
formatted by the source (two adjacent f-string literals). -/
def exhaustion_msg (num_supply retries : Nat) : String :=
  "Failed to select " ++ toString num_supply ++
  " supply centers with minimum 2-edge distance after " ++ toString retries ++
  " attempts. This may indicate the graph is too small or dense for the requested number of supply centers."

/-- The `for attempt in range(max_retries)` loop: run one attempt; return
its selection when it reached `num_supply`, otherwise retry with the
remaining randomness; raise `RuntimeError` when attempts are exhausted. -/
def algo_attempts (g : TerritoryGraph) (num_supply : Nat) :
    Nat → List Nat → Except PyError (List String)
  | 0, _ => .error (.runtimeError (exhaustion_msg num_supply max_retries))
  | n + 1, rng =>
    let run := select_loop g num_supply (node_ids g).length [] (node_ids g) rng
    if run.1.length = num_supply then .ok run.1
    else algo_attempts g num_supply n run.2

/-- The `ValueError` message for an over-large request. -/
def too_many_msg (num_supply total : Nat) : String :=
  "Cannot select " ++ toString num_supply ++ " supply centers from only " ++
  toString total ++ " territories"

/-- Models `_create_supply_territories_algo`: extract the graph, reject a
request larger than the territory count, then make at most `max_retries`
attempts. -/
def create_supply_territories_algo (grid : HexagonGrid) (num_supply : Nat)
    (rng : List Nat) (coins : List Bool) : Except PyError (List String) :=
  let territory_graph := extract_territory_graph grid coins
  let all_territory_ids := node_ids territory_graph
  if num_supply > all_territory_ids.length then
    .error (.valueError (too_many_msg num_supply all_territory_ids.length))
  else
    algo_attempts territory_graph num_supply max_retries rng

/-- The `oneperhex` selection loop: one `random.choice` per hexagon with a
non-empty territory list (empty hexagons are skipped and consume no
randomness). -/
def one_per_hex_select : List Hexagon → List Nat → List String
  | [], _ => []
  | hexagon :: rest, rng =>
    if hexagon.territories ≠ [] then
      let idx := rng.headD 0 % hexagon.territories.length
      (hexagon.territories.getD idx ⟨"", ∅⟩).territory_id ::
        one_per_hex_select rest rng.tail
    else one_per_hex_select rest rng

/-- Models `random.sample(pool, k)`: `k` draws without replacement. -/
def random_sample : List String → Nat → List Nat → List String
  | _, 0, _ => []
  | pool, k + 1, rng =>
    if pool = [] then []
    else
      let idx := rng.headD 0 % pool.length
      pool.getD idx "" :: random_sample (pool.eraseIdx idx) k rng.tail

/-- The `ValueError` message of the `oneperhex` count check. -/
def oneperhex_msg (num_supply : Nat) : String :=
  "oneperhex mode requires exactly 7 supply centers (one per hexagon), but " ++
  toString num_supply ++ " was requested"

/-- Models `create_supply_territories`: dispatch on the supply mode.  The
source returns `None` for mode `none` (and for unknown modes). -/
def create_supply_territories (grid : HexagonGrid) (supply_mode : String)
    (num_supply : Nat) (rng : List Nat) (coins : List Bool) :
    Except PyError (Option (List String)) :=
  if supply_mode = "none" then .ok none
  else
    let all_territories := grid.hexagons.flatMap
      (fun hexagon => hexagon.territories.map (fun t => t.territory_id))
    if supply_mode = "oneperhex" then
      if num_supply ≠ 7 then .error (.valueError (oneperhex_msg num_supply))
      else .ok (some (one_per_hex_select grid.hexagons rng))
    else if supply_mode = "random" then
      .ok (some (random_sample all_territories
        (min num_supply all_territories.length) rng))
    else if supply_mode = "algo" then
      (create_supply_territories_algo grid num_supply rng coins).map some
    else .ok none

/-- `reachLE g n a b` holds when there is a walk of length at most `n` from
`a` to `b` in the graph, i.e. the shortest-path distance is at most `n`. -/
def reachLE (g : TerritoryGraph) : Nat → String → String → Bool
  | 0, a, b => a == b
  | n + 1, a, b => a == b || (neighbors g a).any (fun c => reachLE g n c b)

/-- Does `needle` occur as a contiguous substring of `hay` (used to state
what an error message reports). -/
def chars_contain (hay needle : List Char) : Bool :=
  needle.isPrefixOf hay ||
    match hay with
    | [] => false
    | _ :: rest => chars_contain rest needle

/-- String-level substring test. -/
def msg_reports (msg : String) (n : Nat) : Bool :=
  chars_contain msg.data (toString n).data

/-- The side-partition invariant: every side 0-5 is touched by exactly one
territory of the hexagon. -/
def side_partition (h : Hexagon) : Prop :=
  ∀ s : HexSide, h.territories.countP (fun t => s ∈ t.touching_sides) = 1

/-- Every internal edge references only territories of the same hexagon. -/
def internal_edges_own (h : Hexagon) : Prop :=
  ∀ e ∈ h.internal_edges, e.1 ∈ h.territories ∧ e.2 ∈ h.territories

/-- Claim C9: the direction-to-side translation returns
`HexSide((d + rotation) mod 6)` and, for any fixed rotation, is a bijection
over the six directions. -/
theorem c9_side_by_direction_formula_and_bijective (h : Hexagon) :
    (∀ d : HexDirection,
      ((get_side_by_direction h d).val : Int) = ((d.val : Int) + h.rotation) % 6) ∧
    Function.Bijective (fun d : HexDirection => get_side_by_direction h d) := by
  have hval : ∀ d : HexDirection,
      ((get_side_by_direction h d).val : Int) = ((d.val : Int) + h.rotation) % 6 := by
    intro d
    have h1 : (0 : Int) ≤ ((d.val : Int) + h.rotation) % 6 :=
      Int.emod_nonneg _ (by omega)
    simp [get_side_by_direction]
    omega
  refine ⟨hval, ?_⟩
  have hinj : Function.Injective (fun d : HexDirection => get_side_by_direction h d) := by
    intro d d' heq
    have h1 := hval d
    have h2 := hval d'
    have hv : (get_side_by_direction h d).val = (get_side_by_direction h d').val :=
      congrArg Fin.val heq
    have hd6 : d.val < 6 := d.isLt
    have hd6' : d'.val < 6 := d'.isLt
    have : ((d.val : Int) + h.rotation) % 6 = ((d'.val : Int) + h.rotation) % 6 := by
      omega
    have : d.val = d'.val := by omega
    exact Fin.ext this
  exact (Finite.injective_iff_bijective).mp hinj

/-- Claim C7: each archetype constructor (single, triple, diamond, five)
yields a hexagon whose territories' touching-side sets partition
`{0,...,5}` (every side touched by exactly one territory) and whose
internal edges reference only that hexagon's own territories; the
constructors are total, so this holds for every generated identity. -/
theorem c7_archetype_invariants (hexId t1 t2 t3 t4 t5 : String) :
    (side_partition (create_single hexId t1) ∧
      internal_edges_own (create_single hexId t1)) ∧
    (side_partition (create_triple hexId t1 t2 t3) ∧
      internal_edges_own (create_triple hexId t1 t2 t3)) ∧
    (side_partition (create_diamond hexId t1 t2 t3 t4) ∧
      internal_edges_own (create_diamond hexId t1 t2 t3 t4)) ∧
    (side_partition (create_five hexId t1 t2 t3 t4 t5) ∧
      internal_edges_own (create_five hexId t1 t2 t3 t4 t5)) := by
  refine ⟨⟨?_, ?_⟩, ⟨?_, ?_⟩, ⟨?_, ?_⟩, ⟨?_, ?_⟩⟩ <;>
    first
      | (intro s; fin_cases s <;> rfl)
      | (intro e he;
         simp only [create_single, create_triple, create_diamond,
           create_five] at he;
         fin_cases he <;>
           simp [create_single, create_triple, create_diamond, create_five])

/-- Claim C8: when `add_hexagon` is called with a connection target and both
sides, and either side is already occupied, it returns `false`, leaves the
connection list unchanged, and still appends the hexagon to the grid. -/
theorem c8_add_hexagon_occupied_side (g : HexagonGrid) (hexagon : Hexagon)
    (target : String) (mySide theirSide : HexSide)
    (hocc : is_side_occupied g hexagon.hex_id mySide = true ∨
      is_side_occupied g target theirSide = true) :
    (add_hexagon g hexagon (some target) (some mySide) (some theirSide)).1 =
      .ok false ∧
    (add_hexagon g hexagon (some target) (some mySide)
      (some theirSide)).2.hex_connections = g.hex_connections ∧
    (add_hexagon g hexagon (some target) (some mySide)
      (some theirSide)).2.hexagons = g.hexagons ++ [hexagon] := by
  have hocc1 : ∀ hid s, is_side_occupied
      { g with hexagons := g.hexagons ++ [hexagon] } hid s = is_side_occupied g hid s := by
    intro hid s; rfl
  by_cases h1 : is_side_occupied g hexagon.hex_id mySide = true
  · simp [add_hexagon, hocc1, h1]
  · have h2 : is_side_occupied g target theirSide = true := by tauto
    simp [add_hexagon, hocc1, h1, h2]

/-- A concrete grid whose connection list already occupies side 0 of
hexagon `A`, and a bare hexagon `C`, used by the C8 witness. -/
def c8grid : HexagonGrid :=
  { hexagons := [], hex_connections := [("A", 0, "B", 1)] }

/-- The bare hexagon used by the C8 witness. -/
def c8hex : Hexagon :=
  { hex_id := "C", territories := [], internal_edges := [], rotation := 0 }

/-- Witness for C8: re-connecting to the occupied side 0 of `A` fails,
appends no tuple, and still adds the new hexagon. -/
theorem c8_witness :
    is_side_occupied c8grid "A" 0 = true ∧
    ((add_hexagon c8grid c8hex (some "A") (some 2) (some 0)).1 = .ok false ∧
     (add_hexagon c8grid c8hex (some "A") (some 2)
        (some 0)).2.hex_connections = c8grid.hex_connections ∧
     (add_hexagon c8grid c8hex (some "A") (some 2) (some 0)).2.hexagons =
       c8grid.hexagons ++ [c8hex]) :=
  ⟨by decide,
    c8_add_hexagon_occupied_side c8grid c8hex "A" 2 0 (Or.inr (by decide))⟩

/-- Membership in the nested all-to-all pair loops. -/
theorem mem_all_pairs {l1 l2 : List Territory} {p : Territory × Territory} :
    p ∈ all_pairs l1 l2 ↔ p.1 ∈ l1 ∧ p.2 ∈ l2 := by
  cases p with
  | mk a b =>
    simp only [all_pairs, List.mem_flatMap, List.mem_map, Prod.mk.injEq]
    constructor
    · rintro ⟨t1, ht1, t2, ht2, rfl, rfl⟩; exact ⟨ht1, ht2⟩
    · rintro ⟨ha, hb⟩; exact ⟨a, ha, b, hb, rfl, rfl⟩

/-- The classifier returns `start` exactly when the previous side is
touched. -/
theorem position_eq_start_iff (t : Territory) (s : HexSide) :
    get_territory_position t s = "start" ↔ prev_side s ∈ t.touching_sides := by
  unfold get_territory_position
  split
  · simp_all
  · split <;> simp_all

/-- The classifier returns `end` exactly when the next side is touched but
the previous one is not. -/
theorem position_eq_end_iff (t : Territory) (s : HexSide) :
    get_territory_position t s = "end" ↔
      (prev_side s ∉ t.touching_sides ∧ next_side s ∈ t.touching_sides) := by
  unfold get_territory_position
  split
  · simp_all
  · split <;> simp_all

/-- The classifier returns `middle` exactly when neither adjacent side is
touched. -/
theorem position_eq_middle_iff (t : Territory) (s : HexSide) :
    get_territory_position t s = "middle" ↔
      (prev_side s ∉ t.touching_sides ∧ next_side s ∉ t.touching_sides) := by
  unfold get_territory_position
  split
  · simp_all
  · split <;> simp_all

/-- The `all four positional buckets non-empty` condition of the optional
diagonal edge, in existential form. -/
def four_buckets_nonempty (ts1 ts2 : List Territory) (s1 s2 : HexSide) : Prop :=
  (∃ t ∈ ts1, get_territory_position t s1 = "start") ∧
  (∃ t ∈ ts1, get_territory_position t s1 = "end") ∧
  (∃ t ∈ ts2, get_territory_position t s2 = "start") ∧
  (∃ t ∈ ts2, get_territory_position t s2 = "end")

instance (ts1 ts2 : List Territory) (s1 s2 : HexSide) :
    Decidable (four_buckets_nonempty ts1 ts2 s1 s2) := by
  unfold four_buckets_nonempty; infer_instance

/-- A list filter is non-empty exactly when some member satisfies the
predicate. -/
theorem filter_ne_nil_iff {α : Type} (l : List α) (p : α → Bool) :
    l.filter p ≠ [] ↔ ∃ t ∈ l, p t = true := by
  rw [Ne, List.filter_eq_nil_iff]
  push_neg
  simp

set_option maxHeartbeats 1600000 in
/-- Full description of the two-territories-per-side case of
`_get_smart_territory_connections`: exactly which pairs are produced
(deterministic start/end pairing plus the coin-selected diagonal when all
four positional buckets are non-empty), and that the coin stream is
consumed exactly when the diagonal is considered. -/
theorem smart_two_two_spec (ts1 ts2 : List Territory) (s1 s2 : HexSide)
    (coins : List Bool) (h1 : ts1.length = 2) (h2 : ts2.length = 2) :
    (∀ p : Territory × Territory,
      p ∈ (get_smart_territory_connections ts1 ts2 s1 s2 coins).1 ↔
        (p.1 ∈ ts1 ∧ p.2 ∈ ts2 ∧
          ((get_territory_position p.1 s1 = "start" ∧
              get_territory_position p.2 s2 = "end") ∨
           (get_territory_position p.1 s1 = "end" ∧
              get_territory_position p.2 s2 = "start") ∨
           (four_buckets_nonempty ts1 ts2 s1 s2 ∧ coins.headD true = true ∧
              get_territory_position p.1 s1 = "start" ∧
              get_territory_position p.2 s2 = "start") ∨
           (four_buckets_nonempty ts1 ts2 s1 s2 ∧ coins.headD true = false ∧
              get_territory_position p.1 s1 = "end" ∧
              get_territory_position p.2 s2 = "end")))) ∧
    (get_smart_territory_connections ts1 ts2 s1 s2 coins).2 =
      (if four_buckets_nonempty ts1 ts2 s1 s2 then coins.tail else coins) := by
  have hne1 : ¬ (ts1.length = 1 ∨ ts2.length = 1) := by omega
  have heq2 : ts1.length = 2 ∧ ts2.length = 2 := ⟨h1, h2⟩
  have hfilter : four_buckets_nonempty ts1 ts2 s1 s2 ↔
      (ts1.filter (fun t => get_territory_position t s1 == "start") ≠ [] ∧
       ts1.filter (fun t => get_territory_position t s1 == "end") ≠ [] ∧
       ts2.filter (fun t => get_territory_position t s2 == "start") ≠ [] ∧
       ts2.filter (fun t => get_territory_position t s2 == "end") ≠ []) := by
    unfold four_buckets_nonempty
    simp only [filter_ne_nil_iff, beq_iff_eq]
  unfold get_smart_territory_connections
  rw [if_neg hne1, if_pos heq2]
  simp only []
  by_cases hfour : ts1.filter (fun t => get_territory_position t s1 == "start") ≠ [] ∧
      ts1.filter (fun t => get_territory_position t s1 == "end") ≠ [] ∧
      ts2.filter (fun t => get_territory_position t s2 == "start") ≠ [] ∧
      ts2.filter (fun t => get_territory_position t s2 == "end") ≠ []
  · have hf : four_buckets_nonempty ts1 ts2 s1 s2 := hfilter.mpr hfour
    rw [if_pos hfour, if_pos hf]
    by_cases hc : coins.headD true = true
    · rw [if_pos hc]
      refine ⟨?_, rfl⟩
      intro p
      simp only [List.mem_append, mem_all_pairs, List.mem_filter, beq_iff_eq,
        hf, hc, true_and, eq_self_iff_true, Bool.true_eq_false, false_and,
        and_false, or_false]
      tauto
    · rw [if_neg hc]
      simp only [Bool.not_eq_true] at hc
      refine ⟨?_, rfl⟩
      intro p
      simp only [List.mem_append, mem_all_pairs, List.mem_filter, beq_iff_eq,
        hf, hc, true_and, eq_self_iff_true, Bool.false_eq_true, false_and,
        and_false, or_false]
      tauto
  · have hnf : ¬ four_buckets_nonempty ts1 ts2 s1 s2 := fun h => hfour (hfilter.mp h)
    rw [if_neg hfour, if_neg hnf]
    refine ⟨?_, rfl⟩
    intro p
    simp only [List.mem_append, mem_all_pairs, List.mem_filter, beq_iff_eq, hnf,
      false_and, or_false]
    tauto

/-- Counterexample for C2: in a two-vs-two connection, the territory
`{"m", sides {0, 3}}` touching connected side 0 is classified `middle`,
yet it does not touch *only* side 0 (it also touches side 3).  None of the
claim's three classification descriptions (start: touches side 5; end:
touches side 1; middle: touches only side 0) applies to it. -/
theorem c2_counterexample :
    (([⟨"m", {0, 3}⟩, ⟨"s", {5, 0}⟩] : List Territory).length = 2 ∧
     ([⟨"u", {5, 0}⟩, ⟨"v", {0, 1}⟩] : List Territory).length = 2 ∧
     (⟨"m", {0, 3}⟩ : Territory) ∈
       ([⟨"m", {0, 3}⟩, ⟨"s", {5, 0}⟩] : List Territory) ∧
     (0 : HexSide) ∈ (⟨"m", {0, 3}⟩ : Territory).touching_sides) ∧
    ¬ ((get_territory_position ⟨"m", {0, 3}⟩ 0 = "start" ∧
          prev_side 0 ∈ (⟨"m", {0, 3}⟩ : Territory).touching_sides) ∨
       (get_territory_position ⟨"m", {0, 3}⟩ 0 = "end" ∧
          next_side 0 ∈ (⟨"m", {0, 3}⟩ : Territory).touching_sides) ∨
       (get_territory_position ⟨"m", {0, 3}⟩ 0 = "middle" ∧
          (⟨"m", {0, 3}⟩ : Territory).touching_sides = {0})) := by
  refine ⟨by decide, ?_⟩
  decide

/-- Claim C2 (amended): in the two-territories-each case, every territory
is classified `start` (touches `(s-1) mod 6`), `end` (touches `(s+1) mod 6`
but not `(s-1) mod 6`), or `middle` (touches neither adjacent side — it may
still touch non-adjacent sides); the produced connections are exactly every
start-of-side1 with every end-of-side2 and every end-of-side1 with every
start-of-side2, plus, only when all four positional buckets are non-empty,
the edges of exactly one of start-to-start (coin true) or end-to-end (coin
false) as chosen by the single coin flip; never both. -/
theorem c2_amended_smart_connections (ts1 ts2 : List Territory)
    (s1 s2 : HexSide) (coins : List Bool)
    (h1 : ts1.length = 2) (h2 : ts2.length = 2) :
    (∀ (t : Territory) (s : HexSide),
      (get_territory_position t s = "start" ∧ prev_side s ∈ t.touching_sides) ∨
      (get_territory_position t s = "end" ∧ prev_side s ∉ t.touching_sides ∧
        next_side s ∈ t.touching_sides) ∨
      (get_territory_position t s = "middle" ∧ prev_side s ∉ t.touching_sides ∧
        next_side s ∉ t.touching_sides)) ∧
    (∀ p : Territory × Territory,
      p ∈ (get_smart_territory_connections ts1 ts2 s1 s2 coins).1 ↔
        (p.1 ∈ ts1 ∧ p.2 ∈ ts2 ∧
          ((get_territory_position p.1 s1 = "start" ∧
              get_territory_position p.2 s2 = "end") ∨
           (get_territory_position p.1 s1 = "end" ∧
              get_territory_position p.2 s2 = "start") ∨
           (four_buckets_nonempty ts1 ts2 s1 s2 ∧ coins.headD true = true ∧
              get_territory_position p.1 s1 = "start" ∧
              get_territory_position p.2 s2 = "start") ∨
           (four_buckets_nonempty ts1 ts2 s1 s2 ∧ coins.headD true = false ∧
              get_territory_position p.1 s1 = "end" ∧
              get_territory_position p.2 s2 = "end")))) ∧
    ¬ ((∃ p ∈ (get_smart_territory_connections ts1 ts2 s1 s2 coins).1,
          get_territory_position p.1 s1 = "start" ∧
          get_territory_position p.2 s2 = "start") ∧
       (∃ p ∈ (get_smart_territory_connections ts1 ts2 s1 s2 coins).1,
          get_territory_position p.1 s1 = "end" ∧
          get_territory_position p.2 s2 = "end")) := by
  have hmem := (smart_two_two_spec ts1 ts2 s1 s2 coins h1 h2).1
  refine ⟨?_, hmem, ?_⟩
  · intro t s
    by_cases hp : prev_side s ∈ t.touching_sides
    · exact Or.inl ⟨(position_eq_start_iff t s).mpr hp, hp⟩
    · by_cases hn : next_side s ∈ t.touching_sides
      · exact Or.inr (Or.inl ⟨(position_eq_end_iff t s).mpr ⟨hp, hn⟩, hp, hn⟩)
      · exact Or.inr (Or.inr ⟨(position_eq_middle_iff t s).mpr ⟨hp, hn⟩, hp, hn⟩)
  · rintro ⟨⟨p, hp, hp1, hp2⟩, ⟨q, hq, hq1, hq2⟩⟩
    have hptrue : coins.headD true = true := by
      rcases (hmem p).mp hp with
        ⟨-, -, ⟨e1, e2⟩ | ⟨e1, e2⟩ | ⟨-, hcoin, -, -⟩ | ⟨-, -, e1, -⟩⟩
      · exact absurd (e2.symm.trans hp2) (by decide)
      · exact absurd (e1.symm.trans hp1) (by decide)
      · exact hcoin
      · exact absurd (e1.symm.trans hp1) (by decide)
    have hqfalse : coins.headD true = false := by
      rcases (hmem q).mp hq with
        ⟨-, -, ⟨e1, e2⟩ | ⟨e1, e2⟩ | ⟨-, -, e1, -⟩ | ⟨-, hcoin, -, -⟩⟩
      · exact absurd (e1.symm.trans hq1) (by decide)
      · exact absurd (e2.symm.trans hq2) (by decide)
      · exact absurd (e1.symm.trans hq1) (by decide)
      · exact hcoin
    rw [hptrue] at hqfalse
    exact absurd hqfalse (by decide)

/-- Witness for C2 (amended): a concrete two-vs-two connection with all
four buckets filled and coin `true`; start-to-start edges are produced but
never together with end-to-end edges. -/
theorem c2_witness :
    ([⟨"a1", {5, 0}⟩, ⟨"a2", {0, 1}⟩] : List Territory).length = 2 ∧
    ([⟨"b1", {2, 3}⟩, ⟨"b2", {3, 4}⟩] : List Territory).length = 2 ∧
    ¬ ((∃ p ∈ (get_smart_territory_connections
            [⟨"a1", {5, 0}⟩, ⟨"a2", {0, 1}⟩]
            [⟨"b1", {2, 3}⟩, ⟨"b2", {3, 4}⟩] 0 3 [true]).1,
          get_territory_position p.1 0 = "start" ∧
          get_territory_position p.2 3 = "start") ∧
       (∃ p ∈ (get_smart_territory_connections
            [⟨"a1", {5, 0}⟩, ⟨"a2", {0, 1}⟩]
            [⟨"b1", {2, 3}⟩, ⟨"b2", {3, 4}⟩] 0 3 [true]).1,
          get_territory_position p.1 0 = "end" ∧
          get_territory_position p.2 3 = "end")) :=
  ⟨by decide, by decide,
    (c2_amended_smart_connections
      [⟨"a1", {5, 0}⟩, ⟨"a2", {0, 1}⟩]
      [⟨"b1", {2, 3}⟩, ⟨"b2", {3, 4}⟩] 0 3 [true]
      (by decide) (by decide)).2.2⟩

/-- Claim C10: in the two-vs-two case, a territory classified `middle` on
side 1 appears in no produced connection as the side-1 endpoint; moreover
its presence leaves a positional bucket empty, so only the deterministic
start/end pairs are produced and the coin stream is not consumed. -/
theorem c10_middle_territory_gets_no_edge (ts1 ts2 : List Territory)
    (s1 s2 : HexSide) (coins : List Bool) (t : Territory)
    (h1 : ts1.length = 2) (h2 : ts2.length = 2) (ht : t ∈ ts1)
    (hmid : get_territory_position t s1 = "middle") :
    (∀ p ∈ (get_smart_territory_connections ts1 ts2 s1 s2 coins).1, p.1 ≠ t) ∧
    (∀ p ∈ (get_smart_territory_connections ts1 ts2 s1 s2 coins).1,
      (get_territory_position p.1 s1 = "start" ∧
        get_territory_position p.2 s2 = "end") ∨
      (get_territory_position p.1 s1 = "end" ∧
        get_territory_position p.2 s2 = "start")) ∧
    (get_smart_territory_connections ts1 ts2 s1 s2 coins).2 = coins := by
  obtain ⟨spec1, spec2⟩ := smart_two_two_spec ts1 ts2 s1 s2 coins h1 h2
  have hno4 : ¬ four_buckets_nonempty ts1 ts2 s1 s2 := by
    rintro ⟨⟨a, ha, hpa⟩, ⟨b, hb, hpb⟩, -, -⟩
    obtain ⟨x, y, rfl⟩ := List.length_eq_two.mp h1
    have hat : a ≠ t := by
      intro h; rw [h] at hpa
      exact absurd (hpa.symm.trans hmid) (by decide)
    have hbt : b ≠ t := by
      intro h; rw [h] at hpb
      exact absurd (hpb.symm.trans hmid) (by decide)
    simp only [List.mem_cons, List.not_mem_nil, or_false] at ht ha hb
    rcases ht with rfl | rfl
    · rcases ha with h | rfl
      · exact hat h
      · rcases hb with h | rfl
        · exact hbt h
        · exact absurd (hpa.symm.trans hpb) (by decide)
    · rcases ha with rfl | h
      · rcases hb with rfl | h
        · exact absurd (hpa.symm.trans hpb) (by decide)
        · exact hbt h
      · exact hat h
  have hforms : ∀ p ∈ (get_smart_territory_connections ts1 ts2 s1 s2 coins).1,
      (get_territory_position p.1 s1 = "start" ∧
        get_territory_position p.2 s2 = "end") ∨
      (get_territory_position p.1 s1 = "end" ∧
        get_territory_position p.2 s2 = "start") := by
    intro p hp
    rcases (spec1 p).mp hp with ⟨-, -, h | h | ⟨h4, -⟩ | ⟨h4, -⟩⟩
    · exact Or.inl h
    · exact Or.inr h
    · exact absurd h4 hno4
    · exact absurd h4 hno4
  refine ⟨?_, hforms, ?_⟩
  · intro p hp heq
    rcases hforms p hp with ⟨h, -⟩ | ⟨h, -⟩ <;> rw [heq] at h <;>
      exact absurd (h.symm.trans hmid) (by decide)
  · rw [spec2, if_neg hno4]

/-- Witness for C10: a concrete two-vs-two connection whose side-1
territory `m` is classified `middle`; it receives no edge, only the
deterministic pairs are produced, and the coin stream is untouched. -/
theorem c10_witness :
    ([⟨"m", {0, 3}⟩, ⟨"s", {5, 0}⟩] : List Territory).length = 2 ∧
    ([⟨"u", {2, 3}⟩, ⟨"v", {3, 4}⟩] : List Territory).length = 2 ∧
    (⟨"m", {0, 3}⟩ : Territory) ∈
      ([⟨"m", {0, 3}⟩, ⟨"s", {5, 0}⟩] : List Territory) ∧
    get_territory_position ⟨"m", {0, 3}⟩ 0 = "middle" ∧
    ((∀ p ∈ (get_smart_territory_connections [⟨"m", {0, 3}⟩, ⟨"s", {5, 0}⟩]
        [⟨"u", {2, 3}⟩, ⟨"v", {3, 4}⟩] 0 3 [false]).1,
        p.1 ≠ (⟨"m", {0, 3}⟩ : Territory)) ∧
     (get_smart_territory_connections [⟨"m", {0, 3}⟩, ⟨"s", {5, 0}⟩]
        [⟨"u", {2, 3}⟩, ⟨"v", {3, 4}⟩] 0 3 [false]).2 = [false]) := by
  have h := c10_middle_territory_gets_no_edge
    [⟨"m", {0, 3}⟩, ⟨"s", {5, 0}⟩] [⟨"u", {2, 3}⟩, ⟨"v", {3, 4}⟩]
    0 3 [false] ⟨"m", {0, 3}⟩ (by decide) (by decide) (by decide) (by decide)
  exact ⟨by decide, by decide, by decide, by decide, h.1, h.2.2⟩

/-- A fold preserves any invariant preserved by each step. -/
theorem foldl_preserve {α β : Type} (Q : β → Prop) (l : List α) (f : β → α → β)
    (b : β) (hb : Q b) (hstep : ∀ x ∈ l, ∀ y, Q y → Q (f y x)) :
    Q (l.foldl f b) := by
  induction l generalizing b with
  | nil => exact hb
  | cons x xs ih =>
    exact ih (f b x) (hstep x (List.mem_cons_self x xs) b hb)
      (fun z hz y hy => hstep z (List.mem_cons_of_mem x hz) y hy)

/-- `ensure_node` never touches the edge list. -/
theorem ensure_node_edges (g : TerritoryGraph) (id : String) :
    (ensure_node g id).edges = g.edges := by
  unfold ensure_node; split <;> rfl

/-- `add_node` never touches the edge list. -/
theorem add_node_edges (g : TerritoryGraph) (id hexId : String) :
    (add_node g id hexId).edges = g.edges := by
  unfold add_node; split <;> rfl

/-- Matching the same unordered pair is invariant under swapping the query
pair for an equivalent one. -/
theorem edge_matches_congr {u v a b : String} (h : edge_matches u v a b = true)
    (x y : String) : edge_matches x y a b = edge_matches x y u v := by
  unfold edge_matches at h ⊢
  rcases Bool.or_eq_true_iff.mp h with h' | h' <;>
    · obtain ⟨h1, h2⟩ := Bool.and_eq_true_iff.mp h'
      rw [eq_of_beq h1, eq_of_beq h2] <;> simp [Bool.or_comm]

/-- The graph keeps at most one stored edge per unordered node pair. -/
def simple_edges (g : TerritoryGraph) : Prop :=
  ∀ a b : String,
    g.edges.countP (fun e => edge_matches e.1 e.2.1 a b) ≤ 1

/-- `add_edge` preserves the one-edge-per-pair property: an existing pair
is updated in place, a fresh pair appends its single entry. -/
theorem simple_edges_add_edge (g : TerritoryGraph) (a b ctype : String)
    (hg : simple_edges g) : simple_edges (add_edge g a b ctype) := by
  intro x y
  unfold add_edge
  simp only [ensure_node_edges]
  split
  · next hany =>
    rw [List.countP_map]
    have hpt : ∀ e : String × String × String,
        ((fun e => edge_matches e.1 e.2.1 x y) ∘
          (fun e => if edge_matches e.1 e.2.1 a b = true then (e.1, e.2.1, ctype) else e)) e =
          edge_matches e.1 e.2.1 x y := by
      intro e
      by_cases hc : edge_matches e.1 e.2.1 a b = true <;> simp [hc]
    calc List.countP _ g.edges
        = g.edges.countP (fun e => edge_matches e.1 e.2.1 x y) :=
          List.countP_congr (fun e _ => by rw [hpt e])
      _ ≤ 1 := hg x y
  · next hany =>
    rw [List.countP_append]
    by_cases hm : edge_matches a b x y = true
    · have hzero : g.edges.countP (fun e => edge_matches e.1 e.2.1 x y) = 0 := by
        rw [List.countP_eq_zero]
        intro e he habs
        rw [edge_matches_congr hm e.1 e.2.1] at habs
        exact hany (List.any_eq_true.mpr ⟨e, he, habs⟩)
      simp [hzero, List.countP_cons, hm]
    · have hle : g.edges.countP (fun e => edge_matches e.1 e.2.1 x y) ≤ 1 := hg x y
      have hm' : edge_matches a b x y = false := by
        rcases h : edge_matches a b x y with _ | _
        · rfl
        · exact absurd h hm
      simp [List.countP_cons, hm']
      omega

/-- A graph with no edges trivially satisfies the one-edge-per-pair
property. -/
theorem simple_edges_of_nil {g : TerritoryGraph} (h : g.edges = []) :
    simple_edges g := by
  intro a b; rw [h]; simp

/-- The node-insertion pass of the extractor produces no edges. -/
theorem extract_node_pass_edges (grid : HexagonGrid) :
    (grid.hexagons.foldl
      (fun g hexagon => hexagon.territories.foldl
        (fun g t => add_node g t.territory_id hexagon.hex_id) g)
      ({} : TerritoryGraph)).edges = [] := by
  apply foldl_preserve (fun g : TerritoryGraph => g.edges = [])
  · rfl
  · intro hexagon _ g hg
    apply foldl_preserve (fun g : TerritoryGraph => g.edges = [])
    · exact hg
    · intro t _ g' hg'
      rw [add_node_edges]; exact hg'

/-- Claim C3 (amended): the extracted territory graph is simple — for any
unordered node pair it stores at most one edge entry, because a pair
produced a second time by the derivation updates the existing edge's kind
tag in place instead of adding a distinct edge. -/
theorem c3_amended_extract_simple (grid : HexagonGrid) (coins : List Bool)
    (a b : String) :
    (extract_territory_graph grid coins).edges.countP
      (fun e => edge_matches e.1 e.2.1 a b) ≤ 1 := by
  suffices h : simple_edges (extract_territory_graph grid coins) from h a b
  unfold extract_territory_graph
  apply foldl_preserve
    (fun acc : TerritoryGraph × List Bool => simple_edges acc.1)
  · -- after the internal-edge pass
    apply foldl_preserve (fun g : TerritoryGraph => simple_edges g)
    · exact simple_edges_of_nil (extract_node_pass_edges grid)
    · intro e _ g hg
      exact simple_edges_add_edge g e.1 e.2 "internal" hg
  · intro conn _ acc hacc
    rcases hA : get_hexagon_by_id grid conn.1 with _ | hex1 <;>
      rcases hB : get_hexagon_by_id grid conn.2.2.1 with _ | hex2 <;>
      simp only [hA, hB]
    · exact hacc
    · exact hacc
    · exact hacc
    · apply foldl_preserve (fun g : TerritoryGraph => simple_edges g)
      · exact hacc
      · intro p _ g hg
        exact simple_edges_add_edge g p.1.territory_id p.2.territory_id
          "inter_hexagon" hg

/-- Territory `a` of the C3 counterexample grid. -/
def c3t1 : Territory := ⟨"a", {0}⟩

/-- Territory `b` of the C3 counterexample grid. -/
def c3t2 : Territory := ⟨"b", {1, 2, 3, 4, 5}⟩

/-- A one-hexagon grid whose internal edge pair (`a`, `b`) is also produced
by an inter-hexagon connection (the hexagon is connected to itself on sides
0 and 1, which the extractor happily processes). -/
def c3hex : Hexagon :=
  { hex_id := "H", territories := [c3t1, c3t2],
    internal_edges := [(c3t1, c3t2)], rotation := 0 }

/-- The C3 counterexample grid: one hexagon connected to itself on sides 0
and 1. -/
def c3grid : HexagonGrid :=
  { hexagons := [c3hex], hex_connections := [("H", 0, "H", 1)] }

/-- Counterexample for C3: the derivation produces the pair (`a`, `b`)
twice — once as an internal edge and once as an inter-hexagon edge — yet
the extracted graph stores a single edge for the pair, and the `internal`
kind tag has been overwritten by `inter_hexagon`: the two kinds are NOT
kept as distinct edges. -/
theorem c3_counterexample :
    (c3grid.hexagons.flatMap (fun h => h.internal_edges)).length = 1 ∧
    (extract_territory_graph c3grid []).edges = [("a", "b", "inter_hexagon")] ∧
    (extract_territory_graph c3grid []).edges.countP
      (fun e => edge_matches e.1 e.2.1 "a" "b") = 1 ∧
    ¬ ∃ e ∈ (extract_territory_graph c3grid []).edges, e.2.2 = "internal" := by
  refine ⟨by decide, by decide, by decide, ?_⟩
  decide

/-- All pairs produced by `_get_smart_territory_connections` draw their
first component from the side-1 territory list and their second from the
side-2 list (every branch builds subsets of the product). -/
theorem smart_connections_sub (ts1 ts2 : List Territory) (s1 s2 : HexSide)
    (coins : List Bool) :
    ∀ p ∈ (get_smart_territory_connections ts1 ts2 s1 s2 coins).1,
      p.1 ∈ ts1 ∧ p.2 ∈ ts2 := by
  intro p hp
  by_cases hcase : ts1.length = 2 ∧ ts2.length = 2
  · have h := ((smart_two_two_spec ts1 ts2 s1 s2 coins hcase.1 hcase.2).1 p).mp hp
    exact ⟨h.1, h.2.1⟩
  · unfold get_smart_territory_connections at hp
    split at hp
    · exact mem_all_pairs.mp hp
    · exact mem_all_pairs.mp hp

/-- An unordered node pair is backed by a grid connection: some connection
tuple `(hexA, sideA, hexB, sideB)` resolves to hexagons whose territories
`t1` (touching `sideA`) and `t2` (touching `sideB`) carry exactly these two
ids. -/
def inter_pair_supported (grid : HexagonGrid) (u v : String) : Prop :=
  ∃ conn ∈ grid.hex_connections, ∃ hex1 hex2 : Hexagon,
    get_hexagon_by_id grid conn.1 = some hex1 ∧
    get_hexagon_by_id grid conn.2.2.1 = some hex2 ∧
    ∃ t1 ∈ hex1.territories, ∃ t2 ∈ hex2.territories,
      conn.2.1 ∈ t1.touching_sides ∧ conn.2.2.2 ∈ t2.touching_sides ∧
      ((u = t1.territory_id ∧ v = t2.territory_id) ∨
       (u = t2.territory_id ∧ v = t1.territory_id))

/-- Adding an `internal` edge keeps every stored tag equal to
`internal`. -/
theorem internal_tags_add_edge (g : TerritoryGraph) (a b : String)
    (hg : ∀ e ∈ g.edges, e.2.2 = "internal") :
    ∀ e ∈ (add_edge g a b "internal").edges, e.2.2 = "internal" := by
  intro e he
  unfold add_edge at he
  simp only [ensure_node_edges] at he
  split at he
  · obtain ⟨e0, he0, heq⟩ := List.mem_map.mp he
    subst heq
    split
    · rfl
    · exact hg e0 he0
  · rcases List.mem_append.mp he with h | h
    · exact hg e h
    · rw [List.mem_singleton.mp h]

/-- After the internal pass of the extractor, every stored edge is tagged
`internal`. -/
theorem extract_internal_pass_tags (grid : HexagonGrid) :
    ∀ e ∈ ((grid.hexagons.flatMap
        (fun hexagon => hexagon.internal_edges.map
          (fun e => (e.1.territory_id, e.2.territory_id)))).foldl
      (fun g e => add_edge g e.1 e.2 "internal")
      (grid.hexagons.foldl
        (fun g hexagon => hexagon.territories.foldl
          (fun g t => add_node g t.territory_id hexagon.hex_id) g)
        ({} : TerritoryGraph))).edges, e.2.2 = "internal" := by
  apply foldl_preserve
    (fun g : TerritoryGraph => ∀ e ∈ g.edges, e.2.2 = "internal")
  · intro e he
    rw [extract_node_pass_edges grid] at he
    exact absurd he (List.not_mem_nil e)
  · intro x _ g hg
    exact internal_tags_add_edge g x.1 x.2 hg

/-- Adding an `inter_hexagon` edge for a supported pair preserves the
property that every `inter_hexagon`-tagged edge is supported (an updated
entry keeps its old endpoints, which match the new pair in some order). -/
theorem inter_supported_add_edge (grid : HexagonGrid) (g : TerritoryGraph)
    (a b : String)
    (hg : ∀ e ∈ g.edges, e.2.2 = "inter_hexagon" →
      inter_pair_supported grid e.1 e.2.1)
    (hok : ∀ u v : String, ((u = a ∧ v = b) ∨ (u = b ∧ v = a)) →
      inter_pair_supported grid u v) :
    ∀ e ∈ (add_edge g a b "inter_hexagon").edges,
      e.2.2 = "inter_hexagon" → inter_pair_supported grid e.1 e.2.1 := by
  intro e he htag
  unfold add_edge at he
  simp only [ensure_node_edges] at he
  split at he
  · obtain ⟨e0, he0, heq⟩ := List.mem_map.mp he
    subst heq
    by_cases hmatch : edge_matches e0.1 e0.2.1 a b = true
    · rw [if_pos hmatch] at htag ⊢
      refine hok e0.1 e0.2.1 ?_
      unfold edge_matches at hmatch
      rcases Bool.or_eq_true_iff.mp hmatch with h' | h' <;>
        obtain ⟨h1, h2⟩ := Bool.and_eq_true_iff.mp h'
      · exact Or.inl ⟨eq_of_beq h1, eq_of_beq h2⟩
      · exact Or.inr ⟨eq_of_beq h1, eq_of_beq h2⟩
    · rw [if_neg hmatch] at htag ⊢
      exact hg e0 he0 htag
  · rcases List.mem_append.mp he with h | h
    · exact hg e h htag
    · rw [List.mem_singleton.mp h]
      exact hok a b (Or.inl ⟨rfl, rfl⟩)

/-- Claim C6: every `inter_hexagon`-tagged edge of the extracted graph
joins a territory touching side `sideA` of a hexagon `hexA` to a territory
touching side `sideB` of a hexagon `hexB` for some connection tuple
`(hexA, sideA, hexB, sideB)` of the grid; no inter-hexagon edge exists
without a corresponding connection tuple. -/
theorem c6_inter_edges_need_connection (grid : HexagonGrid) (coins : List Bool)
    (e : String × String × String)
    (he : e ∈ (extract_territory_graph grid coins).edges)
    (htag : e.2.2 = "inter_hexagon") :
    inter_pair_supported grid e.1 e.2.1 := by
  suffices h : ∀ e ∈ (extract_territory_graph grid coins).edges,
      e.2.2 = "inter_hexagon" → inter_pair_supported grid e.1 e.2.1 from
    h e he htag
  unfold extract_territory_graph
  apply foldl_preserve (fun acc : TerritoryGraph × List Bool =>
    ∀ e ∈ acc.1.edges, e.2.2 = "inter_hexagon" →
      inter_pair_supported grid e.1 e.2.1)
  · intro e' he' htag'
    rw [extract_internal_pass_tags grid e' he'] at htag'
    exact absurd htag' (by decide)
  · intro conn hconn acc hacc
    rcases hA : get_hexagon_by_id grid conn.1 with _ | hex1 <;>
      rcases hB : get_hexagon_by_id grid conn.2.2.1 with _ | hex2 <;>
      simp only [hA, hB]
    · exact hacc
    · exact hacc
    · exact hacc
    · apply foldl_preserve (fun g : TerritoryGraph =>
        ∀ e ∈ g.edges, e.2.2 = "inter_hexagon" →
          inter_pair_supported grid e.1 e.2.1)
      · exact hacc
      · intro p hp g hg
        apply inter_supported_add_edge grid g p.1.territory_id p.2.territory_id hg
        intro u v huv
        obtain ⟨hp1, hp2⟩ := smart_connections_sub
          (hex1.territories.filter (fun t => conn.2.1 ∈ t.touching_sides))
          (hex2.territories.filter (fun t => conn.2.2.2 ∈ t.touching_sides))
          conn.2.1 conn.2.2.2 acc.2 p hp
        have h1 := List.mem_filter.mp hp1
        have h2 := List.mem_filter.mp hp2
        refine ⟨conn, hconn, hex1, hex2, hA, hB, p.1, h1.1, p.2, h2.1,
          of_decide_eq_true h1.2, of_decide_eq_true h2.2, ?_⟩
        rcases huv with ⟨rfl, rfl⟩ | ⟨rfl, rfl⟩
        · exact Or.inl ⟨rfl, rfl⟩
        · exact Or.inr ⟨rfl, rfl⟩

/-- The C6 witness grid: two single-territory hexagons joined by one
connection tuple. -/
def c6grid : HexagonGrid :=
  { hexagons := [create_single "H1" "a", create_single "H2" "b"],
    hex_connections := [("H1", 0, "H2", 3)] }

/-- Witness for C6: the inter-hexagon edge (`a`, `b`) of the two-hexagon
grid is backed by its single connection tuple. -/
theorem c6_witness :
    ("a", "b", "inter_hexagon") ∈ (extract_territory_graph c6grid []).edges ∧
    inter_pair_supported c6grid "a" "b" :=
  ⟨by decide,
    c6_inter_edges_need_connection c6grid [] ("a", "b", "inter_hexagon")
      (by decide) rfl⟩

/-- Characterisation of the stored-edge adjacency produced by
`neighbors`. -/
theorem mem_neighbors {g : TerritoryGraph} {u v : String} :
    u ∈ neighbors g v ↔
      ∃ e ∈ g.edges, (e.1 = v ∧ e.2.1 = u) ∨ (e.1 = u ∧ e.2.1 = v) := by
  unfold neighbors
  rw [List.mem_filterMap]
  constructor
  · rintro ⟨e, he, hfn⟩
    refine ⟨e, he, ?_⟩
    split at hfn
    · next h1 => exact Or.inl ⟨eq_of_beq h1, Option.some_injective _ hfn⟩
    · split at hfn
      · next h2 =>
        exact Or.inr ⟨Option.some_injective _ hfn, eq_of_beq h2⟩
      · exact absurd hfn (by simp)
  · rintro ⟨e, he, ⟨h1, h2⟩ | ⟨h1, h2⟩⟩
    · refine ⟨e, he, ?_⟩
      rw [if_pos (beq_iff_eq.mpr h1), h2]
    · by_cases hv : e.1 = v
      · refine ⟨e, he, ?_⟩
        rw [if_pos (beq_iff_eq.mpr hv), h2, ← hv, h1]
      · refine ⟨e, he, ?_⟩
        rw [if_neg (by simpa using hv), if_pos (beq_iff_eq.mpr h2), h1]

/-- Stored-edge adjacency is symmetric. -/
theorem neighbors_symm {g : TerritoryGraph} {u v : String} :
    u ∈ neighbors g v ↔ v ∈ neighbors g u := by
  rw [mem_neighbors, mem_neighbors]
  constructor <;> rintro ⟨e, he, h | h⟩
  · exact ⟨e, he, Or.inr h⟩
  · exact ⟨e, he, Or.inl h⟩
  · exact ⟨e, he, Or.inr h⟩
  · exact ⟨e, he, Or.inl h⟩

/-- `reachLE g 2` is exactly: equal, adjacent, or sharing a common
neighbor — i.e. shortest-path distance at most 2. -/
theorem reachLE_two_iff (g : TerritoryGraph) (a b : String) :
    reachLE g 2 a b = true ↔
      a = b ∨ b ∈ neighbors g a ∨
        ∃ c ∈ neighbors g a, b ∈ neighbors g c := by
  have hunfold : reachLE g 2 a b =
      (a == b || (neighbors g a).any
        (fun c => c == b || (neighbors g c).any (fun d => d == b))) := rfl
  rw [hunfold]
  simp only [Bool.or_eq_true, List.any_eq_true, beq_iff_eq]
  constructor
  · rintro (rfl | ⟨c, hc, rfl | ⟨d, hd, rfl⟩⟩)
    · exact Or.inl rfl
    · exact Or.inr (Or.inl hc)
    · exact Or.inr (Or.inr ⟨c, hc, hd⟩)
  · rintro (rfl | hb | ⟨c, hc, hb⟩)
    · exact Or.inl rfl
    · exact Or.inr ⟨b, hb, Or.inl rfl⟩
    · exact Or.inr ⟨c, hc, Or.inr ⟨b, hb, rfl⟩⟩

/-- Distance-2 unreachability is symmetric. -/
theorem reachLE_two_symm_false {g : TerritoryGraph} {a b : String}
    (h : reachLE g 2 a b = false) : reachLE g 2 b a = false := by
  rcases hr : reachLE g 2 b a with _ | _
  · rfl
  · exfalso
    rcases (reachLE_two_iff g b a).mp hr with heq | hb | ⟨c, hc, hb⟩
    · rw [(reachLE_two_iff g a b).mpr (Or.inl heq.symm)] at h
      exact Bool.noConfusion h
    · rw [(reachLE_two_iff g a b).mpr
        (Or.inr (Or.inl (neighbors_symm.mp hb)))] at h
      exact Bool.noConfusion h
    · rw [(reachLE_two_iff g a b).mpr
        (Or.inr (Or.inr ⟨c, neighbors_symm.mp hb, neighbors_symm.mp hc⟩))] at h
      exact Bool.noConfusion h

/-- Every stored edge references existing nodes (true of every graph the
extractor builds, as `add_edge` inserts missing endpoints). -/
def well_formed (g : TerritoryGraph) : Prop :=
  ∀ e ∈ g.edges, has_node g e.1 = true ∧ has_node g e.2.1 = true

/-- In a well-formed graph, anything with a neighbor is a node. -/
theorem has_node_of_mem_neighbors {g : TerritoryGraph} {u x : String}
    (hwf : well_formed g) (h : x ∈ neighbors g u) : has_node g u = true := by
  rcases mem_neighbors.mp h with ⟨e, he, ⟨h1, -⟩ | ⟨-, h2⟩⟩
  · rw [← h1]; exact (hwf e he).1
  · rw [← h2]; exact (hwf e he).2

/-- The expansion round keeps its input. -/
theorem mem_expand_round_self {g : TerritoryGraph} {s : List String}
    {v : String} (h : v ∈ s) : v ∈ expand_round g s := by
  unfold expand_round
  exact List.mem_append.mpr (Or.inl h)

/-- The expansion round adds the neighbors of well-formed members. -/
theorem mem_expand_round_of_neighbor {g : TerritoryGraph} {s : List String}
    {u v : String} (hwf : well_formed g) (hu : u ∈ s)
    (hv : v ∈ neighbors g u) : v ∈ expand_round g s := by
  unfold expand_round
  refine List.mem_append.mpr (Or.inr (List.mem_flatMap.mpr ⟨u, hu, ?_⟩))
  rw [if_pos (has_node_of_mem_neighbors hwf hv)]
  exact hv

/-- Everything within graph distance 2 of the selected territory lands in
the removal set built by two expansion rounds. -/
theorem reach_mem_removal {g : TerritoryGraph} {t v : String}
    (hwf : well_formed g) (hr : reachLE g 2 t v = true) :
    v ∈ territories_to_remove g t := by
  unfold territories_to_remove
  rcases (reachLE_two_iff g t v).mp hr with heq | hv | ⟨c, hc, hv⟩
  · exact mem_expand_round_self (mem_expand_round_self (by simp [heq]))
  · exact mem_expand_round_self
      (mem_expand_round_of_neighbor hwf (by simp) hv)
  · exact mem_expand_round_of_neighbor hwf
      (mem_expand_round_of_neighbor hwf (by simp) hc) hv

/-- `add_node` can only grow the node-id set. -/
theorem has_node_add_node {g : TerritoryGraph} {x : String} (id hexId : String)
    (h : has_node g x = true) : has_node (add_node g id hexId) x = true := by
  unfold add_node
  split
  · unfold has_node at h ⊢
    obtain ⟨p, hp, hpx⟩ := List.any_eq_true.mp h
    refine List.any_eq_true.mpr ⟨_, List.mem_map.mpr ⟨p, hp, rfl⟩, ?_⟩
    split <;> exact hpx
  · unfold has_node at h ⊢
    obtain ⟨p, hp, hpx⟩ := List.any_eq_true.mp h
    exact List.any_eq_true.mpr ⟨p, List.mem_append.mpr (Or.inl hp), hpx⟩

/-- `ensure_node` can only grow the node-id set. -/
theorem has_node_ensure_node {g : TerritoryGraph} {x : String} (id : String)
    (h : has_node g x = true) : has_node (ensure_node g id) x = true := by
  unfold ensure_node
  split
  · exact h
  · unfold has_node at h ⊢
    obtain ⟨p, hp, hpx⟩ := List.any_eq_true.mp h
    exact List.any_eq_true.mpr ⟨p, List.mem_append.mpr (Or.inl hp), hpx⟩

/-- After `ensure_node g id`, the id is a node. -/
theorem has_node_ensure_node_self (g : TerritoryGraph) (id : String) :
    has_node (ensure_node g id) id = true := by
  unfold ensure_node
  split
  · assumption
  · unfold has_node
    exact List.any_eq_true.mpr
      ⟨(id, none), List.mem_append.mpr (Or.inr (by simp)), by simp⟩

/-- `add_node` preserves well-formedness. -/
theorem well_formed_add_node {g : TerritoryGraph} (id hexId : String)
    (hwf : well_formed g) : well_formed (add_node g id hexId) := by
  intro e he
  rw [add_node_edges] at he
  exact ⟨has_node_add_node id hexId (hwf e he).1,
    has_node_add_node id hexId (hwf e he).2⟩

/-- `add_edge` preserves well-formedness: both endpoints are inserted
before the edge is stored. -/
theorem well_formed_add_edge {g : TerritoryGraph} (a b ctype : String)
    (hwf : well_formed g) : well_formed (add_edge g a b ctype) := by
  have hwf1 : well_formed (ensure_node (ensure_node g a) b) := by
    intro e he
    rw [ensure_node_edges, ensure_node_edges] at he
    exact ⟨has_node_ensure_node b (has_node_ensure_node a (hwf e he).1),
      has_node_ensure_node b (has_node_ensure_node a (hwf e he).2)⟩
  have hna : has_node (ensure_node (ensure_node g a) b) a = true :=
    has_node_ensure_node b (has_node_ensure_node_self g a)
  have hnb : has_node (ensure_node (ensure_node g a) b) b = true :=
    has_node_ensure_node_self (ensure_node g a) b
  have hnodes : (add_edge g a b ctype).nodes =
      (ensure_node (ensure_node g a) b).nodes := by
    unfold add_edge; simp only [ensure_node_edges]; split <;> rfl
  have hhn : ∀ x, has_node (add_edge g a b ctype) x =
      has_node (ensure_node (ensure_node g a) b) x := by
    intro x; unfold has_node; rw [hnodes]
  have hedges : (add_edge g a b ctype).edges =
        (ensure_node (ensure_node g a) b).edges.map
          (fun e => if edge_matches e.1 e.2.1 a b = true then
            (e.1, e.2.1, ctype) else e) ∨
      (add_edge g a b ctype).edges =
        (ensure_node (ensure_node g a) b).edges ++ [(a, b, ctype)] := by
    unfold add_edge; simp only [ensure_node_edges]; split
    · exact Or.inl rfl
    · exact Or.inr rfl
  intro e he
  rw [hhn, hhn]
  rcases hedges with hup | hap
  · rw [hup] at he
    obtain ⟨e0, he0, heq⟩ := List.mem_map.mp he
    subst heq
    have h0 := hwf1 e0 he0
    split <;> exact h0
  · rw [hap] at he
    rcases List.mem_append.mp he with h | h
    · exact hwf1 e h
    · rw [List.mem_singleton.mp h]
      exact ⟨hna, hnb⟩

/-- The extracted territory graph is well-formed. -/
theorem well_formed_extract (grid : HexagonGrid) (coins : List Bool) :
    well_formed (extract_territory_graph grid coins) := by
  unfold extract_territory_graph
  apply foldl_preserve
    (fun acc : TerritoryGraph × List Bool => well_formed acc.1)
  · apply foldl_preserve (fun g : TerritoryGraph => well_formed g)
    · apply foldl_preserve (fun g : TerritoryGraph => well_formed g)
      · intro e he
        exact absurd he (List.not_mem_nil e)
      · intro hexagon _ g hg
        apply foldl_preserve (fun g : TerritoryGraph => well_formed g)
        · exact hg
        · intro t _ g' hg'
          exact well_formed_add_node _ _ hg'
    · intro x _ g hg
      exact well_formed_add_edge _ _ _ hg
  · intro conn _ acc hacc
    rcases hA : get_hexagon_by_id grid conn.1 with _ | hex1 <;>
      rcases hB : get_hexagon_by_id grid conn.2.2.1 with _ | hex2 <;>
      simp only [hA, hB]
    · exact hacc
    · exact hacc
    · exact hacc
    · apply foldl_preserve (fun g : TerritoryGraph => well_formed g)
      · exact hacc
      · intro p _ g hg
        exact well_formed_add_edge _ _ _ hg

/-- Soundness invariant of the selection loop: if the already-selected
territories are pairwise more than distance 2 apart and everything still
available is more than distance 2 from each of them, the same holds for
the loop's final selection. -/
theorem select_loop_sound (g : TerritoryGraph) (hwf : well_formed g)
    (num_supply : Nat) :
    ∀ (fuel : Nat) (selected available : List String) (rng : List Nat),
    (∀ a ∈ selected, ∀ b ∈ selected, a ≠ b → reachLE g 2 a b = false) →
    (∀ a ∈ selected, ∀ v ∈ available, reachLE g 2 a v = false) →
    ∀ a ∈ (select_loop g num_supply fuel selected available rng).1,
    ∀ b ∈ (select_loop g num_supply fuel selected available rng).1,
      a ≠ b → reachLE g 2 a b = false := by
  intro fuel
  induction fuel with
  | zero =>
    intro selected available rng hsel hcross
    simpa only [select_loop] using hsel
  | succ fuel ih =>
    intro selected available rng hsel hcross
    by_cases hcond : selected.length < num_supply ∧ available ≠ []
    · rw [select_loop, if_pos hcond]
      have hlen : 0 < available.length := List.length_pos.mpr hcond.2
      have hidx : rng.headD 0 % available.length < available.length :=
        Nat.mod_lt _ hlen
      have htmem : available.getD (rng.headD 0 % available.length) "" ∈
          available := by
        rw [List.getD_eq_getElem available "" hidx]
        exact List.getElem_mem hidx
      apply ih
      · intro a ha b hb hne
        rcases List.mem_append.mp ha with ha' | ha' <;>
          rcases List.mem_append.mp hb with hb' | hb'
        · exact hsel a ha' b hb' hne
        · rw [List.mem_singleton.mp hb']
          exact hcross a ha' _ htmem
        · rw [List.mem_singleton.mp ha']
          exact reachLE_two_symm_false (hcross b hb' _ htmem)
        · exact absurd ((List.mem_singleton.mp ha').trans
            (List.mem_singleton.mp hb').symm) hne
      · intro a ha v hv
        have hvav : v ∈ available := (List.mem_filter.mp hv).1
        have hvout : v ∉ territories_to_remove g
            (available.getD (rng.headD 0 % available.length) "") :=
          of_decide_eq_true (List.mem_filter.mp hv).2
        rcases List.mem_append.mp ha with ha' | ha'
        · exact hcross a ha' v hvav
        · rw [List.mem_singleton.mp ha']
          rcases hr : reachLE g 2
              (available.getD (rng.headD 0 % available.length) "") v with _ | _
          · rfl
          · exact absurd (reach_mem_removal hwf hr) hvout
    · rw [select_loop, if_neg hcond]
      exact hsel

/-- Soundness of the retry loop: an `ok` result has exactly the requested
length and satisfies the pairwise distance constraint (each attempt starts
from an empty selection, for which the loop invariant is vacuous). -/
theorem algo_attempts_sound (g : TerritoryGraph) (hwf : well_formed g)
    (num_supply : Nat) :
    ∀ (n : Nat) (rng : List Nat) (sel : List String),
    algo_attempts g num_supply n rng = .ok sel →
    sel.length = num_supply ∧
      ∀ a ∈ sel, ∀ b ∈ sel, a ≠ b → reachLE g 2 a b = false := by
  intro n
  induction n with
  | zero =>
    intro rng sel h
    exact absurd h (by simp [algo_attempts])
  | succ n ih =>
    intro rng sel h
    rw [algo_attempts] at h
    split at h
    · next hlen =>
      obtain rfl : (select_loop g num_supply (node_ids g).length []
          (node_ids g) rng).1 = sel := by
        simpa using h
      refine ⟨hlen, ?_⟩
      exact select_loop_sound g hwf num_supply (node_ids g).length []
        (node_ids g) rng (by intro a ha; exact absurd ha (List.not_mem_nil a))
        (by intro a ha; exact absurd ha (List.not_mem_nil a))
    · exact ih _ sel h

/-- Fuel adequacy for `select_loop`: any fuel of at least the number of
available territories gives the same result, because every iteration
removes the picked territory (it lies in its own removal set), so the loop
runs at most `available.length` times — the fuel passed by
`algo_attempts` therefore never truncates the Python `while` loop. -/
theorem select_loop_fuel_congr (g : TerritoryGraph) (num_supply : Nat) :
    ∀ (f1 f2 : Nat) (selected available : List String) (rng : List Nat),
    available.length ≤ f1 → available.length ≤ f2 →
    select_loop g num_supply f1 selected available rng =
    select_loop g num_supply f2 selected available rng := by
  intro f1
  induction f1 with
  | zero =>
    intro f2 selected available rng h1 h2
    have hav : available = [] := List.length_eq_zero.mp (Nat.le_zero.mp h1)
    subst hav
    have hR : select_loop g num_supply f2 selected [] rng = (selected, rng) := by
      cases f2 with
      | zero => rfl
      | succ f2 => rw [select_loop, if_neg (by simp)]
    rw [hR]
    rfl
  | succ f1 ih =>
    intro f2 selected available rng h1 h2
    by_cases hcond : selected.length < num_supply ∧ available ≠ []
    · have hlen : 0 < available.length := List.length_pos.mpr hcond.2
      cases f2 with
      | zero => omega
      | succ f2 =>
        have hidx : rng.headD 0 % available.length < available.length :=
          Nat.mod_lt _ hlen
        have htmem : available.getD (rng.headD 0 % available.length) "" ∈
            available := by
          rw [List.getD_eq_getElem available "" hidx]
          exact List.getElem_mem hidx
        have hts : available.getD (rng.headD 0 % available.length) "" ∈
            territories_to_remove g
              (available.getD (rng.headD 0 % available.length) "") :=
          mem_expand_round_self (mem_expand_round_self (by simp))
        have hpred : ¬ ((fun v => decide (¬ v ∈ territories_to_remove g
            (available.getD (rng.headD 0 % available.length) "")))
            (available.getD (rng.headD 0 % available.length) "") = true) := by
          simp only [decide_eq_true_eq]
          exact not_not_intro hts
        have hdec : (available.filter (fun v => ¬ v ∈ territories_to_remove g
            (available.getD (rng.headD 0 % available.length) ""))).length <
            available.length :=
          List.length_filter_lt_length_iff_exists.mpr ⟨_, htmem, hpred⟩
        conv_lhs => rw [select_loop]
        conv_rhs => rw [select_loop]
        rw [if_pos hcond, if_pos hcond]
        exact ih f2 _ _ _ (by omega) (by omega)
    · have hL : select_loop g num_supply (f1 + 1) selected available rng =
          (selected, rng) := by
        rw [select_loop, if_neg hcond]
      have hR : select_loop g num_supply f2 selected available rng =
          (selected, rng) := by
        cases f2 with
        | zero => rfl
        | succ f2 => rw [select_loop, if_neg hcond]
      rw [hL, hR]

/-- Claim C1: whenever the distance-constrained supply selector returns a
selection, the returned list contains exactly the requested number of
territory ids, and every pair of distinct selected ids is at shortest-path
distance at least 3 in the extracted territory graph (not equal, not
adjacent, not sharing a common neighbor). -/
theorem c1_algo_selection_sound (grid : HexagonGrid) (num_supply : Nat)
    (rng : List Nat) (coins : List Bool) (sel : List String)
    (h : create_supply_territories_algo grid num_supply rng coins = .ok sel) :
    sel.length = num_supply ∧
    ∀ a ∈ sel, ∀ b ∈ sel, a ≠ b →
      reachLE (extract_territory_graph grid coins) 2 a b = false ∧
      ¬ (a = b ∨ b ∈ neighbors (extract_territory_graph grid coins) a ∨
        ∃ c ∈ neighbors (extract_territory_graph grid coins) a,
          b ∈ neighbors (extract_territory_graph grid coins) c) := by
  unfold create_supply_territories_algo at h
  simp only [] at h
  split at h
  · exact absurd h (by simp)
  · obtain ⟨hlen, hpair⟩ := algo_attempts_sound
      (extract_territory_graph grid coins)
      (well_formed_extract grid coins) num_supply max_retries rng sel h
    refine ⟨hlen, ?_⟩
    intro a ha b hb hne
    have hf := hpair a ha b hb hne
    refine ⟨hf, ?_⟩
    intro hcontra
    rw [← reachLE_two_iff (extract_territory_graph grid coins) a b] at hcontra
    rw [hf] at hcontra
    exact Bool.noConfusion hcontra

/-- The C1 witness grid: a lone single-territory hexagon. -/
def c1grid : HexagonGrid := { hexagons := [create_single "H" "a"] }

/-- Witness for C1: requesting one supply center from the lone-territory
grid succeeds with exactly that territory, trivially satisfying the
pairwise constraint. -/
theorem c1_witness :
    create_supply_territories_algo c1grid 1 [] [] = .ok ["a"] ∧
    (["a"].length = 1 ∧
      ∀ a ∈ ["a"], ∀ b ∈ ["a"], a ≠ b →
        reachLE (extract_territory_graph c1grid []) 2 a b = false ∧
        ¬ (a = b ∨ b ∈ neighbors (extract_territory_graph c1grid []) a ∨
          ∃ c ∈ neighbors (extract_territory_graph c1grid []) a,
            b ∈ neighbors (extract_territory_graph c1grid []) c)) :=
  ⟨rfl, c1_algo_selection_sound c1grid 1 [] [] ["a"] rfl⟩

/-- A needle occurs in any list that carries it after some prefix. -/
theorem chars_contain_append (a needle rest : List Char) :
    chars_contain (a ++ (needle ++ rest)) needle = true := by
  induction a with
  | nil =>
    rw [chars_contain.eq_def]
    have h : needle.isPrefixOf (needle ++ rest) = true := by
      rw [List.isPrefixOf_iff_prefix]
      exact List.prefix_append needle rest
    simp [h]
  | cons c a ih =>
    rw [chars_contain.eq_def]
    simp [ih]

/-- The exhaustion message reports both the requested count and the retry
budget (their decimal forms occur in the message). -/
theorem exhaustion_msg_reports (n r : Nat) :
    msg_reports (exhaustion_msg n r) n = true ∧
    msg_reports (exhaustion_msg n r) r = true := by
  unfold msg_reports exhaustion_msg
  constructor
  · simp only [String.data_append, List.append_assoc]
    exact chars_contain_append _ _ _
  · simp only [String.data_append, List.append_assoc]
    rw [← List.append_assoc, ← List.append_assoc]
    exact chars_contain_append _ _ _

/-- Any error produced by the retry loop is the exhaustion
`RuntimeError` carrying the fixed message. -/
theorem algo_attempts_error (g : TerritoryGraph) (num_supply : Nat) :
    ∀ (n : Nat) (rng : List Nat) (e : PyError),
    algo_attempts g num_supply n rng = .error e →
    e = .runtimeError (exhaustion_msg num_supply max_retries) := by
  intro n
  induction n with
  | zero =>
    intro rng e h
    rw [algo_attempts] at h
    exact (Except.error.injEq _ _ ▸ congrArg id h) ▸ rfl
  | succ n ih =>
    intro rng e h
    rw [algo_attempts] at h
    split at h
    · exact absurd h (by simp)
    · exact ih _ e h

/-- Claim C5 (amended): when the distance-constrained selector exhausts all
5 attempts it fails with a fatal `RuntimeError` whose report includes the
requested count and the retry budget — but not the node count of the
extracted graph. -/
theorem c5_amended_exhaustion_error (grid : HexagonGrid) (num_supply : Nat)
    (rng : List Nat) (coins : List Bool) (m : String)
    (h : create_supply_territories_algo grid num_supply rng coins =
      .error (.runtimeError m)) :
    m = exhaustion_msg num_supply max_retries ∧
    msg_reports m num_supply = true ∧
    msg_reports m max_retries = true := by
  unfold create_supply_territories_algo at h
  simp only [] at h
  split at h
  · exact absurd (Except.error.inj h) (by simp)
  · have := algo_attempts_error (extract_territory_graph grid coins)
      num_supply max_retries rng _ h
    have hm : m = exhaustion_msg num_supply max_retries :=
      PyError.runtimeError.inj this
    subst hm
    exact ⟨rfl, exhaustion_msg_reports num_supply max_retries⟩

/-- The C5 grid: a lone triple hexagon, whose extracted graph is a triangle
of 3 territories — any selection removes everything, so 2 supply centers
can never be placed. -/
def c5grid : HexagonGrid := { hexagons := [create_triple "H" "a" "b" "c"] }

/-- Counterexample for C5: on the triangle graph (3 nodes) with requested
count 2, every attempt fails and the raised message reports the requested
count (2) and the retry budget (5) but NOT the graph's node count (3) —
the decimal form of 3 does not occur in the message. -/
theorem c5_counterexample :
    create_supply_territories_algo c5grid 2 [] [] =
      .error (.runtimeError (exhaustion_msg 2 5)) ∧
    (extract_territory_graph c5grid []).nodes.length = 3 ∧
    msg_reports (exhaustion_msg 2 5) 3 = false ∧
    msg_reports (exhaustion_msg 2 5) 2 = true ∧
    msg_reports (exhaustion_msg 2 5) 5 = true :=
  ⟨rfl, rfl, by decide, by decide, by decide⟩

/-- Witness for C5 (amended): the concrete exhaustion run on the triangle
grid produces exactly the fixed message, which reports 2 and 5. -/
theorem c5_witness :
    create_supply_territories_algo c5grid 2 [] [] =
      .error (.runtimeError (exhaustion_msg 2 5)) ∧
    (exhaustion_msg 2 5 = exhaustion_msg 2 max_retries ∧
      msg_reports (exhaustion_msg 2 5) 2 = true ∧
      msg_reports (exhaustion_msg 2 5) max_retries = true) :=
  ⟨rfl, c5_amended_exhaustion_error c5grid 2 [] [] (exhaustion_msg 2 5) rfl⟩

/-- Each hexagon with a non-empty territory list contributes exactly one of
its own territory ids to the `oneperhex` selection, in order. -/
theorem one_per_hex_select_forall (hexes : List Hexagon) (rng : List Nat) :
    List.Forall₂
      (fun (h : Hexagon) tid => ∃ t ∈ h.territories, t.territory_id = tid)
      (hexes.filter (fun h => h.territories ≠ []))
      (one_per_hex_select hexes rng) := by
  induction hexes generalizing rng with
  | nil => simp [one_per_hex_select]
  | cons hx hs ih =>
    by_cases hne : hx.territories ≠ []
    · rw [one_per_hex_select, if_pos hne,
        List.filter_cons_of_pos (by simpa using hne)]
      have hlen : 0 < hx.territories.length := List.length_pos.mpr hne
      have hidx : rng.headD 0 % hx.territories.length < hx.territories.length :=
        Nat.mod_lt _ hlen
      refine List.Forall₂.cons ⟨_, ?_, rfl⟩ (ih rng.tail)
      rw [List.getD_eq_getElem hx.territories _ hidx]
      exact List.getElem_mem hidx
    · rw [one_per_hex_select, if_neg hne,
        List.filter_cons_of_neg (by simpa using hne)]
      exact ih rng

/-- Claim C4 (amended): one-per-hexagon selection fails with `ValueError`
exactly when the requested count differs from the constant 7 (the
reference pipeline's fixed hexagon count) — for every grid and before any
randomness is consumed (the outcome is the same for every random stream) —
and otherwise returns one territory id per hexagon with a non-empty
territory list, drawn from that hexagon. -/
theorem c4_amended_oneperhex (grid : HexagonGrid) (num_supply : Nat)
    (rng : List Nat) (coins : List Bool) :
    create_supply_territories grid "oneperhex" num_supply rng coins =
      (if num_supply = 7 then
        .ok (some (one_per_hex_select grid.hexagons rng))
      else .error (.valueError (oneperhex_msg num_supply))) ∧
    List.Forall₂
      (fun (h : Hexagon) tid => ∃ t ∈ h.territories, t.territory_id = tid)
      (grid.hexagons.filter (fun h => h.territories ≠ []))
      (one_per_hex_select grid.hexagons rng) := by
  refine ⟨?_, one_per_hex_select_forall grid.hexagons rng⟩
  unfold create_supply_territories
  rw [if_neg (by decide : ¬ ("oneperhex" = "none"))]
  simp only [if_true]
  by_cases h7 : num_supply = 7
  · rw [if_neg (not_not_intro h7), if_pos h7]
  · rw [if_pos h7, if_neg h7]

/-- The C4 grid: one hexagon with a single territory. -/
def c4grid : HexagonGrid := { hexagons := [create_single "H" "a"] }

/-- Counterexample for C4: on a grid with 1 hexagon, requesting a count
equal to the hexagon count (1) fails, while requesting 7 — a count NOT
equal to the hexagon count — succeeds: the check compares against the
constant 7, not the grid's hexagon count. -/
theorem c4_counterexample :
    c4grid.hexagons.length = 1 ∧
    create_supply_territories c4grid "oneperhex" 1 [] [] =
      .error (.valueError (oneperhex_msg 1)) ∧
    create_supply_territories c4grid "oneperhex" 7 [] [] = .ok (some ["a"]) :=
  ⟨rfl, rfl, rfl⟩
